import Mathlib

/-!
# Verification of the JSON-LD context resolver and RFC ontology

Shallow embedding of `tools/exp/rdf/parse.go` (the `@context` resolution
algorithm) and `tools/exp/rdf/rfc/ontology.go` (the reference ontology
provider with its three scalar terms `bcp47`, `mime`, `rel`).

The `RDFRegistry` type, the `ParsedVocabulary` accumulator and its
`GetReference`/`SetValue` operations, and the
`SerializeValueFunction`/`DeserializeValueFunction`/`LessFunction` wrappers
live in repository files that are not available; where needed they are
modelled from the specification and marked `Modelled from the spec:`.
Everything else is translated directly from the Go source.
-/

/-- A decoded dynamic JSON value (Go `interface{}` after JSON decoding):
string, number, bool, null, `[]interface{}`, or `map[string]interface{}`.
Mappings are represented as association lists with first-match lookup;
list order stands in for Go's (unspecified) map iteration order. -/
inductive DynVal where
  | str (s : String)
  | num (n : Int)
  | bool (b : Bool)
  | null
  | arr (xs : List DynVal)
  | obj (fields : List (String × DynVal))

/-- Whether the dynamic value is a Go string (`i.(string)` succeeds). -/
def DynVal.isStr : DynVal → Bool
  | .str _ => true
  | _ => false

/-- Whether the dynamic value is a Go `map[string]interface{}`. -/
def DynVal.isObj : DynVal → Bool
  | .obj _ => true
  | _ => false

/-- A Go `error` value as produced by this code: either a plain
`fmt.Errorf` message, or a formatted message carrying one `%v`/`%s`
argument (kept structurally so theorems can speak about the offending
value the error names). -/
inductive GoErr where
  | msg (s : String)
  | errorfVal (fmtStr : String) (arg : DynVal)
  | errorfStr (fmtStr : String) (arg : String)

/-- `JSONLD` is an alias for the generic map of keys to interfaces
(parse.go:13), modelled as an association list. -/
def JSONLD := List (String × DynVal)

/-- parse.go:8 `JSON_LD_CONTEXT = "@context"`. -/
def JSON_LD_CONTEXT : String := "@context"

/-! ## Vocabulary model

The `rdf` package's vocabulary accumulator is not among the available
sources; it is modelled from the specification (§3 Data Model, §4.4, §9). -/

/-- A `jen` type descriptor as used by the ontology source: `jen.String()`
or the nil zero value of the interface. -/
inductive JenType where
  | jenString
  | jenNil
deriving DecidableEq

/-- The `[]jen.Code` function bodies built in `rfc/ontology.go`, reified.
`returnThisNil` is `jen.Return(jen.Id(this), jen.Nil())` (the serialize
bodies); `stringAssertOrErrorf fmtStr` is the `if s, ok := this.(string)`
/ `else return "", fmt.Errorf(fmtStr, this)` block (the deserialize
bodies); `lhsLtRhs` is `jen.Return(jen.Id("lhs").Op("<").Id("rhs"))` (the
less bodies); `nilFn` is the Go zero value of a function field. -/
inductive FnBody where
  | returnThisNil
  | stringAssertOrErrorf (fmtStr : String)
  | lhsLtRhs
  | nilFn
deriving DecidableEq

/-- Semantics of a unary generated function body applied to one dynamic
value: `some (result, err)` when the body denotes a unary function,
`none` otherwise.  `returnThisNil` returns its input unchanged with no
error; `stringAssertOrErrorf` succeeds on a string input and otherwise
returns the empty string together with the formatted error naming the
offending value. -/
def FnBody.runUnary : FnBody → DynVal → Option (DynVal × Option GoErr)
  | .returnThisNil, this => some (this, none)
  | .stringAssertOrErrorf fmtStr, this =>
    match this with
    | .str s => some (.str s, none)
    | v => some (.str "", some (.errorfVal fmtStr v))
  | .lhsLtRhs, _ => none
  | .nilFn, _ => none

/-- Modelled from the spec: a generated value function (the result of the
`rdf.SerializeValueFunction` / `DeserializeValueFunction` /
`LessFunction` helpers), packaging the output package tag, the term name,
the `jen` return type and the reified body. -/
structure ValueFunction where
  pkg : String
  name : String
  retType : JenType
  body : FnBody
deriving DecidableEq

/-- Modelled from the spec: `rdf.SerializeValueFunction(pkg, name, ty, body)`. -/
def SerializeValueFunction (pkg name : String) (ty : JenType) (body : FnBody) :
    ValueFunction := ⟨pkg, name, ty, body⟩

/-- Modelled from the spec: `rdf.DeserializeValueFunction(pkg, name, ty, body)`. -/
def DeserializeValueFunction (pkg name : String) (ty : JenType) (body : FnBody) :
    ValueFunction := ⟨pkg, name, ty, body⟩

/-- Modelled from the spec: `rdf.LessFunction(pkg, name, ty, body)`. -/
def LessFunction (pkg name : String) (ty : JenType) (body : FnBody) :
    ValueFunction := ⟨pkg, name, ty, body⟩

/-- Modelled from the spec (§3 Vocabulary Value): one resolved term — name,
URI (represented by its string; see `urlParse`), type descriptor,
zero-value literal, nilability flag, and the three transform contracts. -/
structure VocabularyValue where
  Name : String
  URI : String
  DefinitionType : JenType
  Zero : String
  IsNilable : Bool
  SerializeFn : ValueFunction
  DeserializeFn : ValueFunction
  LessFn : ValueFunction
deriving DecidableEq

/-- The Go zero value of `VocabularyValue` (what indexing a missing key of
a `map[string]VocabularyValue` yields); its `Name` is empty. -/
def VocabularyValue.zeroVal : VocabularyValue :=
  { Name := "", URI := "", DefinitionType := .jenNil, Zero := "",
    IsNilable := false,
    SerializeFn := ⟨"", "", .jenNil, .nilFn⟩,
    DeserializeFn := ⟨"", "", .jenNil, .nilFn⟩,
    LessFn := ⟨"", "", .jenNil, .nilFn⟩ }

/-- Modelled from the spec (§3 Reference Entry): the per-specification-URI
bucket, a mapping from term name to Vocabulary Value (association list,
newest entry first). -/
structure Vocabulary where
  Values : List (String × VocabularyValue)
deriving DecidableEq

/-- Go map read with zero-value default: `v.Values[name]`. -/
def Vocabulary.valuesGet (v : Vocabulary) (name : String) : VocabularyValue :=
  match v.Values.lookup name with
  | some vv => vv
  | none => VocabularyValue.zeroVal

/-- Modelled from the spec (§9): `SetValue` is "insert if absent, else
verify equality": committing to an empty slot inserts; committing the
same value twice is a silent no-op; committing a different value to an
occupied slot fails with a Collision error (§8). -/
def Vocabulary.SetValue (v : Vocabulary) (name : String)
    (val : VocabularyValue) : Vocabulary × Option GoErr :=
  match v.Values.lookup name with
  | none => (⟨(name, val) :: v.Values⟩, none)
  | some old =>
    if old = val then (v, none)
    else (v, some (.msg ("collision: a different vocabulary value already exists for " ++ name)))

/-- Modelled from the spec (§3 Parsed Vocabulary): mapping from
specification-URI reference to a Reference Entry. -/
structure ParsedVocabulary where
  References : List (String × Vocabulary)
deriving DecidableEq

/-- Modelled from the spec (§4.4 step 1): fetch the Reference Entry for a
spec URI, or the empty entry when absent. -/
def ParsedVocabulary.GetReference (pv : ParsedVocabulary) (spec : String) :
    Vocabulary :=
  match pv.References.lookup spec with
  | some v => v
  | none => ⟨[]⟩

/-- Store an updated Reference Entry (newest entry shadows older ones
under first-match lookup). -/
def ParsedVocabulary.setReference (pv : ParsedVocabulary) (spec : String)
    (v : Vocabulary) : ParsedVocabulary :=
  ⟨(spec, v) :: pv.References⟩

/-- ParsingContext contains the results of the parsing (parse.go:17-19). -/
structure ParsingContext where
  Result : ParsedVocabulary
deriving DecidableEq

/-! ## The context resolver (parse.go) -/

/-- Modelled from the spec (§4.2 Ontology Registry): the registry's three
resolution operations, each returning a node list and a Go error in the
Go style (both components materialised, as callers may return both).
`Node` is kept abstract: parse.go treats registry-produced `RDFNode`s as
opaque. -/
structure RDFRegistry (Node : Type) where
  getFor : String → List Node × Option GoErr
  getAliased : String → String → List Node × Option GoErr
  getAliasedObject : String → List (String × DynVal) → List Node × Option GoErr

/-- The per-entry loop over a dictionary-shaped context (parse.go:49-68 and
84-103); `errMsg` is the shape-error message of the enclosing branch
("... in dict in array ..." vs "... in dict ...").  On error the
accumulated `nodes` are returned alongside the error, as the Go named
returns do. -/
def ctxDictLoop {Node : Type} (registry : RDFRegistry Node) (errMsg : String) :
    List (String × DynVal) → List Node → List Node × Option GoErr
  | [], nodes => (nodes, none)
  | (al, val) :: rest, nodes =>
    match val with
    | .str s =>
      match registry.getAliased al s with
      | (_, some e) => (nodes, some e)
      | (n, none) => ctxDictLoop registry errMsg rest (nodes ++ n)
    | .obj aliasedMap =>
      match registry.getAliasedObject al aliasedMap with
      | (_, some e) => (nodes, some e)
      | (n, none) => ctxDictLoop registry errMsg rest (nodes ++ n)
    | _ => (nodes, some (.msg errMsg))

/-- The element loop over an array-shaped context (parse.go:46-81). -/
def ctxArrayLoop {Node : Type} (registry : RDFRegistry Node) :
    List DynVal → List Node → List Node × Option GoErr
  | [], nodes => (nodes, none)
  | iVal :: rest, nodes =>
    match iVal with
    | .obj valMap =>
      match ctxDictLoop registry "@context value in dict in array is neither a dict nor a string" valMap nodes with
      | (nodes2, some e) => (nodes2, some e)
      | (nodes2, none) => ctxArrayLoop registry rest nodes2
    | .str s =>
      match registry.getFor s with
      | (_, some e) => (nodes, some e)
      | (n, none) => ctxArrayLoop registry rest (nodes ++ n)
    | _ => (nodes, some (.msg "@context value in array is neither a dict nor a string"))

/-- parseJSONLDContext (parse.go:38-113).  Note the final branch
(parse.go:104-111): when the single `@context` value is not a string, the
Go code assigns `err = fmt.Errorf("single @context value is not a
string")` but then executes `return registry.getFor(s)` with `s` the
string zero value `""`, so the assigned error is overwritten by
`getFor`'s results — the shape error is never surfaced. -/
def parseJSONLDContext {Node : Type} (registry : RDFRegistry Node)
    (input : JSONLD) : List Node × Option GoErr :=
  match List.lookup JSON_LD_CONTEXT input with
  | none => ([], some (.msg "no @context in input"))
  | some i =>
    match i with
    | .arr inArray => ctxArrayLoop registry inArray []
    | .obj inMap => ctxDictLoop registry "@context value in dict is neither a dict nor a string" inMap []
    | .str s => registry.getFor s
    | _ => registry.getFor ""

/-- ParseVocabulary (parse.go:30-33): the named return `vocabulary` is
never assigned (nil pointer, modelled as `none`); only the error of
`parseJSONLDContext` is propagated and the nodes are discarded. -/
def ParseVocabulary {Node : Type} (registry : RDFRegistry Node)
    (input : JSONLD) : Option ParsedVocabulary × Option GoErr :=
  (none, (parseJSONLDContext registry input).2)

/-! ## The RFC ontology provider (rfc/ontology.go) -/

/-- rfc/ontology.go:15 `rfcSpec = "https://tools.ietf.org/html/"`. -/
def rfcSpec : String := "https://tools.ietf.org/html/"

/-- rfc/ontology.go:16 `bcp47Spec = "bcp47"`. -/
def bcp47Spec : String := "bcp47"

/-- rfc/ontology.go:17 `mimeSpec = "rfc2045"`. -/
def mimeSpec : String := "rfc2045"

/-- rfc/ontology.go:18 `relSpec = "rfc5988"`. -/
def relSpec : String := "rfc5988"

/-- Modelled from the spec: `net/url.Parse`, which on the well-formed
absolute constant URLs built in this package always succeeds; the URL is
represented by its string. -/
def urlParse (s : String) : String × Option GoErr := (s, none)

/-- rfc/ontology.go:21-23 `type RFCOntology struct { Package string }`. -/
structure RFCOntology where
  Package : String

/-- rfc/ontology.go:25-27. -/
def RFCOntology.SpecURI (_o : RFCOntology) : String := rfcSpec

/-- rfc/ontology.go:108-110 `type bcp47 struct { pkg string }`. -/
structure bcp47 where
  pkg : String
deriving DecidableEq

/-- rfc/ontology.go:188-190 `type mime struct { pkg string }`. -/
structure mime where
  pkg : String
deriving DecidableEq

/-- rfc/ontology.go:268-270 `type rel struct { pkg string }`. -/
structure rel where
  pkg : String
deriving DecidableEq

/-- rfc/ontology.go:112-114 (note the source's "langaugetag" typo). -/
def bcp47.Enter (_b : bcp47) (_key : String) (_ctx : ParsingContext) :
    Bool × Option GoErr :=
  (true, some (.msg "bcp47 langaugetag cannot be entered"))

/-- rfc/ontology.go:116-118. -/
def bcp47.Exit (_b : bcp47) (_key : String) (_ctx : ParsingContext) :
    Bool × Option GoErr :=
  (true, some (.msg "bcp47 languagetag cannot be exited"))

/-- rfc/ontology.go:192-194. -/
def mime.Enter (_m : mime) (_key : String) (_ctx : ParsingContext) :
    Bool × Option GoErr :=
  (true, some (.msg "MIME media type cannot be entered"))

/-- rfc/ontology.go:196-198. -/
def mime.Exit (_m : mime) (_key : String) (_ctx : ParsingContext) :
    Bool × Option GoErr :=
  (true, some (.msg "MIME media type cannot be exited"))

/-- rfc/ontology.go:272-274. -/
def rel.Enter (_r : rel) (_key : String) (_ctx : ParsingContext) :
    Bool × Option GoErr :=
  (true, some (.msg "rel cannot be entered"))

/-- rfc/ontology.go:276-278. -/
def rel.Exit (_r : rel) (_key : String) (_ctx : ParsingContext) :
    Bool × Option GoErr :=
  (true, some (.msg "rel cannot be exited"))

/-- The `rdf.VocabularyValue` struct literal built by `bcp47.Apply`
(rfc/ontology.go:127-178), with `u` the parsed URI. -/
def bcp47Val (pkg u : String) : VocabularyValue :=
  { Name := bcp47Spec
    URI := u
    DefinitionType := .jenString
    Zero := "\"\""
    IsNilable := false
    SerializeFn := SerializeValueFunction pkg bcp47Spec .jenString .returnThisNil
    DeserializeFn := DeserializeValueFunction pkg bcp47Spec .jenString
      (.stringAssertOrErrorf "%v cannot be interpreted as a string for bcp47 languagetag")
    LessFn := LessFunction pkg bcp47Spec .jenString .lhsLtRhs }

/-- rfc/ontology.go:120-184: `bcp47.Apply`.  The key and value arguments
are never inspected.  State passing replaces the Go mutation of
`ctx.Result` through the `GetReference` pointer: the updated context is
returned as the last component. -/
def bcp47.Apply (b : bcp47) (_key : String) (_value : DynVal)
    (ctx : ParsingContext) : Bool × Option GoErr × ParsingContext :=
  let v := ctx.Result.GetReference rfcSpec
  if (v.valuesGet bcp47Spec).Name.length = 0 then
    match urlParse (rfcSpec ++ bcp47Spec) with
    | (_, some e) => (true, some e, ctx)
    | (u, none) =>
      match v.SetValue bcp47Spec (bcp47Val b.pkg u) with
      | (_, some e) => (true, some e, ctx)
      | (v2, none) =>
        (true, none, { Result := ctx.Result.setReference rfcSpec v2 })
  else
    (true, none, ctx)

/-- The `rdf.VocabularyValue` struct literal built by `mime.Apply`
(rfc/ontology.go:207-258), with `u` the parsed URI. -/
def mimeVal (pkg u : String) : VocabularyValue :=
  { Name := mimeSpec
    URI := u
    DefinitionType := .jenString
    Zero := "\"\""
    IsNilable := false
    SerializeFn := SerializeValueFunction pkg mimeSpec .jenString .returnThisNil
    DeserializeFn := DeserializeValueFunction pkg mimeSpec .jenString
      (.stringAssertOrErrorf "%v cannot be interpreted as a string for MIME media type")
    LessFn := LessFunction pkg mimeSpec .jenString .lhsLtRhs }

/-- rfc/ontology.go:200-264: `mime.Apply`. -/
def mime.Apply (m : mime) (_key : String) (_value : DynVal)
    (ctx : ParsingContext) : Bool × Option GoErr × ParsingContext :=
  let v := ctx.Result.GetReference rfcSpec
  if (v.valuesGet mimeSpec).Name.length = 0 then
    match urlParse (rfcSpec ++ mimeSpec) with
    | (_, some e) => (true, some e, ctx)
    | (u, none) =>
      match v.SetValue mimeSpec (mimeVal m.pkg u) with
      | (_, some e) => (true, some e, ctx)
      | (v2, none) =>
        (true, none, { Result := ctx.Result.setReference rfcSpec v2 })
  else
    (true, none, ctx)

/-- The `rdf.VocabularyValue` struct literal built by `rel.Apply`
(rfc/ontology.go:287-338), with `u` the parsed URI. -/
def relVal (pkg u : String) : VocabularyValue :=
  { Name := relSpec
    URI := u
    DefinitionType := .jenString
    Zero := "\"\""
    IsNilable := false
    SerializeFn := SerializeValueFunction pkg relSpec .jenString .returnThisNil
    DeserializeFn := DeserializeValueFunction pkg relSpec .jenString
      (.stringAssertOrErrorf "%v cannot be interpreted as a string for rel")
    LessFn := LessFunction pkg relSpec .jenString .lhsLtRhs }

/-- rfc/ontology.go:280-344: `rel.Apply`. -/
def rel.Apply (r : rel) (_key : String) (_value : DynVal)
    (ctx : ParsingContext) : Bool × Option GoErr × ParsingContext :=
  let v := ctx.Result.GetReference rfcSpec
  if (v.valuesGet relSpec).Name.length = 0 then
    match urlParse (rfcSpec ++ relSpec) with
    | (_, some e) => (true, some e, ctx)
    | (u, none) =>
      match v.SetValue relSpec (relVal r.pkg u) with
      | (_, some e) => (true, some e, ctx)
      | (v2, none) =>
        (true, none, { Result := ctx.Result.setReference rfcSpec v2 })
  else
    (true, none, ctx)

/-- The node values `GetByName` can return: `&bcp47{...}`, `&mime{...}`,
`&rel{...}`. -/
inductive RFCNode where
  | bcp47N (b : bcp47)
  | mimeN (m : mime)
  | relN (r : rel)
deriving DecidableEq

/-- `strings.TrimPrefix`: drop `pre` from the front of `s` when present,
otherwise return `s` unchanged (expressed on the character lists). -/
def trimPfx (s pre : String) : String :=
  if pre.data.isPrefixOf s.data then ⟨s.data.drop pre.data.length⟩ else s

/-- rfc/ontology.go:93-104: `RFCOntology.GetByName` — strip the spec-URI
prefix, dispatch on the remaining suffix, else a not-found error naming
the (stripped) lookup key. -/
def RFCOntology.GetByName (o : RFCOntology) (name : String) :
    Option RFCNode × Option GoErr :=
  let name2 := trimPfx name (o.SpecURI)
  if name2 = bcp47Spec then (some (.bcp47N ⟨o.Package⟩), none)
  else if name2 = mimeSpec then (some (.mimeN ⟨o.Package⟩), none)
  else if name2 = relSpec then (some (.relN ⟨o.Package⟩), none)
  else (none, some (.errorfStr "rfc ontology could not find node for name %s" name2))

/-! ## Helper lemmas -/

theorem getReference_setReference (pv : ParsedVocabulary) (spec : String)
    (v : Vocabulary) : (pv.setReference spec v).GetReference spec = v := by
  unfold ParsedVocabulary.setReference ParsedVocabulary.GetReference
  simp [List.lookup]

theorem valuesGet_cons_self (name : String) (val : VocabularyValue)
    (rest : List (String × VocabularyValue)) :
    Vocabulary.valuesGet ⟨(name, val) :: rest⟩ name = val := by
  unfold Vocabulary.valuesGet
  simp [List.lookup]

theorem str_length_ne_zero {s : String} (h : s ≠ "") : s.length ≠ 0 := by
  intro hl
  apply h
  apply String.ext
  have hd : s.data.length = 0 := hl
  simpa using List.length_eq_zero.mp hd

/-! ## Concrete registry for evaluating the resolver at concrete inputs -/

/-- A small concrete registry over `Node := String`: every lookup succeeds
and returns one node recording the operation and its arguments. -/
def demoRegistry : RDFRegistry String :=
  { getFor := fun s => (["for:" ++ s], none)
    getAliased := fun al s => (["aliased:" ++ al ++ ":" ++ s], none)
    getAliasedObject := fun al _ => (["aliasedObj:" ++ al], none) }

/-! ## Claim theorems -/

/-- C2: For every registry and every input document, `ParseVocabulary`
returns a nil vocabulary pointer — the nodes produced by context
resolution are discarded and never populate the returned vocabulary,
even when resolution succeeds. -/
theorem parseVocabulary_returns_nil {Node : Type} (registry : RDFRegistry Node)
    (input : JSONLD) : (ParseVocabulary registry input).1 = none := rfl

/-- C8: For every registry and every input document without the key
`@context`, `parseJSONLDContext` fails with the shape error
"no @context in input" and returns an empty node list. -/
theorem missing_context_shape_error {Node : Type} (registry : RDFRegistry Node)
    (input : JSONLD) (h : List.lookup JSON_LD_CONTEXT input = none) :
    parseJSONLDContext registry input
      = ([], some (.msg "no @context in input")) := by
  unfold parseJSONLDContext
  rw [h]

/-- Witness for `missing_context_shape_error` at the empty document. -/
theorem missing_context_shape_error_witness :
    List.lookup JSON_LD_CONTEXT ([] : JSONLD) = none ∧
    parseJSONLDContext demoRegistry ([] : JSONLD)
      = ([], some (.msg "no @context in input")) :=
  ⟨rfl, missing_context_shape_error demoRegistry [] rfl⟩

/-- C1 (code bug): at `{"@context": 42}` the Go code assigns the shape
error "single @context value is not a string" but the subsequent
`return registry.getFor(s)` (parse.go:110) overwrites it with `getFor`'s
results for the zero-value string `""`; with a registry whose `getFor`
succeeds, resolution reports success and returns that lookup's nodes,
instead of failing with the shape error and no nodes. -/
theorem single_context_non_string_error_dropped :
    parseJSONLDContext demoRegistry [(JSON_LD_CONTEXT, DynVal.num 42)]
      = (["for:"], none) := rfl

/-- C9 counterexample: for the context `{"@context": [42]}` the resolver
does fail, but the error message is the source's "@context value in
array is neither a dict nor a string", not the claimed "array element
neither dict nor string". -/
theorem array_bad_element_message_counterexample :
    (parseJSONLDContext demoRegistry
        [(JSON_LD_CONTEXT, DynVal.arr [DynVal.num 42])]).2
      = some (.msg "@context value in array is neither a dict nor a string") ∧
    "@context value in array is neither a dict nor a string"
      ≠ "array element neither dict nor string" :=
  ⟨rfl, by decide⟩

/-- C5: for each of the three RFC reference nodes and every key and
context, `Enter` and `Exit` return a non-nil error — structural nesting
always fails on these scalar-only terms. -/
theorem rfc_enter_exit_always_fail (pkg key : String) (ctx : ParsingContext) :
    ((bcp47.Enter ⟨pkg⟩ key ctx).2 ≠ none ∧ (bcp47.Exit ⟨pkg⟩ key ctx).2 ≠ none) ∧
    ((mime.Enter ⟨pkg⟩ key ctx).2 ≠ none ∧ (mime.Exit ⟨pkg⟩ key ctx).2 ≠ none) ∧
    ((rel.Enter ⟨pkg⟩ key ctx).2 ≠ none ∧ (rel.Exit ⟨pkg⟩ key ctx).2 ≠ none) := by
  refine ⟨⟨?_, ?_⟩, ⟨?_, ?_⟩, ⟨?_, ?_⟩⟩ <;>
    simp [bcp47.Enter, bcp47.Exit, mime.Enter, mime.Exit, rel.Enter, rel.Exit]

/-- C10: for each of the three RFC reference nodes, `Apply` claims every
key (first component `true`) for every key and value, and its whole
result is independent of the key and value arguments. -/
theorem rfc_apply_always_claims (pkg k1 k2 : String) (v1 v2 : DynVal)
    (ctx : ParsingContext) :
    ((bcp47.Apply ⟨pkg⟩ k1 v1 ctx).1 = true ∧
      bcp47.Apply ⟨pkg⟩ k1 v1 ctx = bcp47.Apply ⟨pkg⟩ k2 v2 ctx) ∧
    ((mime.Apply ⟨pkg⟩ k1 v1 ctx).1 = true ∧
      mime.Apply ⟨pkg⟩ k1 v1 ctx = mime.Apply ⟨pkg⟩ k2 v2 ctx) ∧
    ((rel.Apply ⟨pkg⟩ k1 v1 ctx).1 = true ∧
      rel.Apply ⟨pkg⟩ k1 v1 ctx = rel.Apply ⟨pkg⟩ k2 v2 ctx) := by
  refine ⟨⟨?_, rfl⟩, ⟨?_, rfl⟩, ⟨?_, rfl⟩⟩ <;>
    · simp only [bcp47.Apply, mime.Apply, rel.Apply, urlParse]
      split
      · split <;> rfl
      · rfl

/-- The array-loop accumulator is linear: running with accumulator `acc`
prepends `acc` to the nodes of a run from the empty accumulator and
yields the same error. -/
theorem ctxDictLoop_acc {Node : Type} (registry : RDFRegistry Node)
    (errMsg : String) (entries : List (String × DynVal)) :
    ∀ acc : List Node,
      ctxDictLoop registry errMsg entries acc
        = (acc ++ (ctxDictLoop registry errMsg entries []).1,
           (ctxDictLoop registry errMsg entries []).2) := by
  induction entries with
  | nil => intro acc; simp [ctxDictLoop]
  | cons p rest ih =>
    obtain ⟨al, val⟩ := p
    intro acc
    cases val <;> simp only [ctxDictLoop]
    case str s =>
      rcases h : registry.getAliased al s with ⟨n, e⟩
      cases e <;> simp only
      · rw [ih (acc ++ n), ih ([] ++ n)]
        simp [List.append_assoc]
      · simp
    case obj m =>
      rcases h : registry.getAliasedObject al m with ⟨n, e⟩
      cases e <;> simp only
      · rw [ih (acc ++ n), ih ([] ++ n)]
        simp [List.append_assoc]
      · simp
    all_goals simp

theorem ctxArrayLoop_acc {Node : Type} (registry : RDFRegistry Node)
    (elems : List DynVal) :
    ∀ acc : List Node,
      ctxArrayLoop registry elems acc
        = (acc ++ (ctxArrayLoop registry elems []).1,
           (ctxArrayLoop registry elems []).2) := by
  induction elems with
  | nil => intro acc; simp [ctxArrayLoop]
  | cons v rest ih =>
    intro acc
    cases v <;> simp only [ctxArrayLoop]
    case str s =>
      rcases h : registry.getFor s with ⟨n, e⟩
      cases e <;> simp only
      · rw [ih (acc ++ n), ih ([] ++ n)]
        simp [List.append_assoc]
      · simp
    case obj m =>
      rw [ctxDictLoop_acc registry _ m acc,
        ctxDictLoop_acc registry _ m []]
      rcases h : ctxDictLoop registry
        "@context value in dict in array is neither a dict nor a string" m [] with ⟨n, e⟩
      cases e <;> simp only
      · rw [ih (acc ++ ([] ++ n)), ih ([] ++ n)]
        simp [List.append_assoc]
    all_goals simp

/-- When the prefix of the element list runs without error, the loop over
the concatenation continues into the suffix with the prefix's nodes. -/
theorem ctxArrayLoop_append {Node : Type} (registry : RDFRegistry Node)
    (xs ys : List DynVal) :
    ∀ acc : List Node, (ctxArrayLoop registry xs acc).2 = none →
      ctxArrayLoop registry (xs ++ ys) acc
        = ctxArrayLoop registry ys (ctxArrayLoop registry xs acc).1 := by
  induction xs with
  | nil => intro acc _; simp [ctxArrayLoop]
  | cons v rest ih =>
    intro acc hnone
    cases v <;> simp only [ctxArrayLoop, List.cons_append] at hnone ⊢
    case str s =>
      rcases h : registry.getFor s with ⟨n, e⟩
      rw [h] at hnone
      cases e <;> simp only at hnone ⊢
      · exact ih (acc ++ n) hnone
      · simp at hnone
    case obj m =>
      rcases h : ctxDictLoop registry
        "@context value in dict in array is neither a dict nor a string" m acc with ⟨n, e⟩
      rw [h] at hnone
      cases e <;> simp only at hnone ⊢
      · exact ih n hnone
      · simp at hnone
    all_goals simp at hnone

/-- All-success runs over an array of bare strings concatenate the per-
string `getFor` node lists in order. -/
theorem ctxArrayLoop_strings {Node : Type} (registry : RDFRegistry Node)
    (ss : List String) (hok : ∀ s ∈ ss, (registry.getFor s).2 = none) :
    ∀ acc : List Node,
      ctxArrayLoop registry (ss.map DynVal.str) acc
        = (acc ++ (ss.map (fun s => (registry.getFor s).1)).flatten, none) := by
  induction ss with
  | nil => intro acc; simp [ctxArrayLoop]
  | cons s rest ih =>
    intro acc
    simp only [List.map_cons, ctxArrayLoop]
    rcases h : registry.getFor s with ⟨n, e⟩
    have hs : e = none := by
      have := hok s (by simp)
      rw [h] at this
      exact this
    subst hs
    simp only
    rw [ih (fun t ht => hok t (by simp [ht])) (acc ++ n)]
    simp [h, List.append_assoc]

/-- C4: for every registry and input whose `@context` value is an array
consisting entirely of strings, when every per-string lookup succeeds,
`parseJSONLDContext` returns the concatenation, in order, of the node
lists the per-string `getFor` lookups independently return, with no
error; hence the node count is the sum of the per-lookup counts. -/
theorem array_of_strings_concatenation {Node : Type}
    (registry : RDFRegistry Node) (input : JSONLD) (ss : List String)
    (hctx : List.lookup JSON_LD_CONTEXT input = some (.arr (ss.map DynVal.str)))
    (hok : ∀ s ∈ ss, (registry.getFor s).2 = none) :
    parseJSONLDContext registry input
      = ((ss.map (fun s => (registry.getFor s).1)).flatten, none) ∧
    (parseJSONLDContext registry input).1.length
      = (ss.map (fun s => (registry.getFor s).1.length)).sum := by
  have h : parseJSONLDContext registry input
      = ((ss.map (fun s => (registry.getFor s).1)).flatten, none) := by
    unfold parseJSONLDContext
    rw [hctx]
    dsimp only
    rw [ctxArrayLoop_strings registry ss hok []]
    simp
  refine ⟨h, ?_⟩
  rw [h]
  simp [List.length_flatten, List.map_map, Function.comp_def]

/-- Witness for `array_of_strings_concatenation` at
`{"@context": ["a", "b"]}` against the demo registry. -/
theorem array_of_strings_concatenation_witness :
    List.lookup JSON_LD_CONTEXT
        ([(JSON_LD_CONTEXT, DynVal.arr [DynVal.str "a", DynVal.str "b"])] : JSONLD)
      = some (.arr (["a", "b"].map DynVal.str)) ∧
    (∀ s ∈ ["a", "b"], (demoRegistry.getFor s).2 = none) ∧
    (parseJSONLDContext demoRegistry
        [(JSON_LD_CONTEXT, DynVal.arr [DynVal.str "a", DynVal.str "b"])]
      = ((["a", "b"].map (fun s => (demoRegistry.getFor s).1)).flatten, none) ∧
    (parseJSONLDContext demoRegistry
        [(JSON_LD_CONTEXT, DynVal.arr [DynVal.str "a", DynVal.str "b"])]).1.length
      = (["a", "b"].map (fun s => (demoRegistry.getFor s).1.length)).sum) :=
  ⟨rfl, fun _ _ => rfl,
    array_of_strings_concatenation demoRegistry _ ["a", "b"] rfl (fun _ _ => rfl)⟩

/-- C9 (amended): when the `@context` array has a prefix of elements that
all resolve without error followed by an element that is neither a
dictionary nor a string, resolution aborts there with the shape error
"@context value in array is neither a dict nor a string". -/
theorem array_bad_element_shape_error {Node : Type}
    (registry : RDFRegistry Node) (input : JSONLD) (pre rest : List DynVal)
    (bad : DynVal)
    (hctx : List.lookup JSON_LD_CONTEXT input = some (.arr (pre ++ bad :: rest)))
    (hpre : (ctxArrayLoop registry pre ([] : List Node)).2 = none)
    (hobj : bad.isObj = false) (hstr : bad.isStr = false) :
    (parseJSONLDContext registry input).2
      = some (.msg "@context value in array is neither a dict nor a string") := by
  unfold parseJSONLDContext
  rw [hctx]
  dsimp only
  rw [ctxArrayLoop_append registry pre (bad :: rest) [] hpre]
  cases bad <;> simp_all [ctxArrayLoop, DynVal.isObj, DynVal.isStr]

/-- Witness for `array_bad_element_shape_error` at `{"@context": [42]}`. -/
theorem array_bad_element_shape_error_witness :
    List.lookup JSON_LD_CONTEXT
        ([(JSON_LD_CONTEXT, DynVal.arr [DynVal.num 42])] : JSONLD)
      = some (.arr ([] ++ DynVal.num 42 :: [])) ∧
    (ctxArrayLoop demoRegistry [] ([] : List String)).2 = none ∧
    (DynVal.num 42).isObj = false ∧ (DynVal.num 42).isStr = false ∧
    (parseJSONLDContext demoRegistry
        [(JSON_LD_CONTEXT, DynVal.arr [DynVal.num 42])]).2
      = some (.msg "@context value in array is neither a dict nor a string") :=
  ⟨rfl, rfl, rfl, rfl,
    array_bad_element_shape_error demoRegistry _ [] [] (DynVal.num 42) rfl rfl rfl rfl⟩

/-- C7: `RFCOntology.GetByName` strips the provider's spec-URI prefix from
the name when present and dispatches on the remaining suffix: `bcp47`,
`rfc2045` and `rel5988`'s suffixes yield the corresponding node; any
other suffix yields no node and a not-found error naming the (stripped)
lookup key. -/
theorem getByName_dispatch (o : RFCOntology) (name : String) :
    (trimPfx name o.SpecURI = bcp47Spec →
      o.GetByName name = (some (.bcp47N ⟨o.Package⟩), none)) ∧
    (trimPfx name o.SpecURI = mimeSpec →
      o.GetByName name = (some (.mimeN ⟨o.Package⟩), none)) ∧
    (trimPfx name o.SpecURI = relSpec →
      o.GetByName name = (some (.relN ⟨o.Package⟩), none)) ∧
    (trimPfx name o.SpecURI ≠ bcp47Spec → trimPfx name o.SpecURI ≠ mimeSpec →
      trimPfx name o.SpecURI ≠ relSpec →
      o.GetByName name = (none,
        some (.errorfStr "rfc ontology could not find node for name %s"
          (trimPfx name o.SpecURI)))) := by
  unfold RFCOntology.GetByName
  dsimp only
  refine ⟨fun h => ?_, fun h => ?_, fun h => ?_, fun h1 h2 h3 => ?_⟩
  · rw [h, if_pos rfl]
  · rw [h, if_neg (by decide), if_pos rfl]
  · rw [h, if_neg (by decide), if_neg (by decide), if_pos rfl]
  · rw [if_neg h1, if_neg h2, if_neg h3]

/-- Witness for `getByName_dispatch`: the full spec URI of `rfc2045`
resolves to the mime node. -/
theorem getByName_dispatch_witness :
    trimPfx "https://tools.ietf.org/html/rfc2045"
        (RFCOntology.SpecURI ⟨"p"⟩) = mimeSpec ∧
    RFCOntology.GetByName ⟨"p"⟩ "https://tools.ietf.org/html/rfc2045"
      = (some (.mimeN ⟨"p"⟩), none) :=
  ⟨by decide,
    (getByName_dispatch ⟨"p"⟩ "https://tools.ietf.org/html/rfc2045").2.1 (by decide)⟩

/-- `bcp47.Apply` on a context whose rfc `bcp47` slot already holds a
value with a non-empty name is a claiming no-op. -/
theorem bcp47_apply_populated (b : bcp47) (key : String) (value : DynVal)
    (ctx : ParsingContext)
    (h : ((ctx.Result.GetReference rfcSpec).valuesGet bcp47Spec).Name.length ≠ 0) :
    bcp47.Apply b key value ctx = (true, none, ctx) := by
  unfold bcp47.Apply
  dsimp only
  rw [if_neg h]

/-- `bcp47.Apply` on a context whose rfc `bcp47` slot is absent inserts
the `bcp47` vocabulary value and succeeds. -/
theorem bcp47_apply_fresh (b : bcp47) (key : String) (value : DynVal)
    (ctx : ParsingContext)
    (hlook : (ctx.Result.GetReference rfcSpec).Values.lookup bcp47Spec = none) :
    bcp47.Apply b key value ctx
      = (true, none,
          ⟨ctx.Result.setReference rfcSpec
            ⟨(bcp47Spec, bcp47Val b.pkg (rfcSpec ++ bcp47Spec))
              :: (ctx.Result.GetReference rfcSpec).Values⟩⟩) := by
  have hc : ((ctx.Result.GetReference rfcSpec).valuesGet bcp47Spec).Name.length = 0 := by
    unfold Vocabulary.valuesGet
    rw [hlook]
    rfl
  unfold bcp47.Apply
  dsimp only
  rw [if_pos hc]
  unfold urlParse
  dsimp only
  unfold Vocabulary.SetValue
  rw [hlook]

/-- `mime.Apply` on a context whose rfc `rfc2045` slot already holds a
value with a non-empty name is a claiming no-op. -/
theorem mime_apply_populated (m : mime) (key : String) (value : DynVal)
    (ctx : ParsingContext)
    (h : ((ctx.Result.GetReference rfcSpec).valuesGet mimeSpec).Name.length ≠ 0) :
    mime.Apply m key value ctx = (true, none, ctx) := by
  unfold mime.Apply
  dsimp only
  rw [if_neg h]

/-- `mime.Apply` on a context whose rfc `rfc2045` slot is absent inserts
the `rfc2045` vocabulary value and succeeds. -/
theorem mime_apply_fresh (m : mime) (key : String) (value : DynVal)
    (ctx : ParsingContext)
    (hlook : (ctx.Result.GetReference rfcSpec).Values.lookup mimeSpec = none) :
    mime.Apply m key value ctx
      = (true, none,
          ⟨ctx.Result.setReference rfcSpec
            ⟨(mimeSpec, mimeVal m.pkg (rfcSpec ++ mimeSpec))
              :: (ctx.Result.GetReference rfcSpec).Values⟩⟩) := by
  have hc : ((ctx.Result.GetReference rfcSpec).valuesGet mimeSpec).Name.length = 0 := by
    unfold Vocabulary.valuesGet
    rw [hlook]
    rfl
  unfold mime.Apply
  dsimp only
  rw [if_pos hc]
  unfold urlParse
  dsimp only
  unfold Vocabulary.SetValue
  rw [hlook]

/-- `rel.Apply` on a context whose rfc `rfc5988` slot already holds a
value with a non-empty name is a claiming no-op. -/
theorem rel_apply_populated (r : rel) (key : String) (value : DynVal)
    (ctx : ParsingContext)
    (h : ((ctx.Result.GetReference rfcSpec).valuesGet relSpec).Name.length ≠ 0) :
    rel.Apply r key value ctx = (true, none, ctx) := by
  unfold rel.Apply
  dsimp only
  rw [if_neg h]

/-- `rel.Apply` on a context whose rfc `rfc5988` slot is absent inserts
the `rfc5988` vocabulary value and succeeds. -/
theorem rel_apply_fresh (r : rel) (key : String) (value : DynVal)
    (ctx : ParsingContext)
    (hlook : (ctx.Result.GetReference rfcSpec).Values.lookup relSpec = none) :
    rel.Apply r key value ctx
      = (true, none,
          ⟨ctx.Result.setReference rfcSpec
            ⟨(relSpec, relVal r.pkg (rfcSpec ++ relSpec))
              :: (ctx.Result.GetReference rfcSpec).Values⟩⟩) := by
  have hc : ((ctx.Result.GetReference rfcSpec).valuesGet relSpec).Name.length = 0 := by
    unfold Vocabulary.valuesGet
    rw [hlook]
    rfl
  unfold rel.Apply
  dsimp only
  rw [if_pos hc]
  unfold urlParse
  dsimp only
  unfold Vocabulary.SetValue
  rw [hlook]

theorem bcp47Val_Name (pkg u : String) : (bcp47Val pkg u).Name = bcp47Spec := rfl

theorem mimeVal_Name (pkg u : String) : (mimeVal pkg u).Name = mimeSpec := rfl

theorem relVal_Name (pkg u : String) : (relVal pkg u).Name = relSpec := rfl

/-- The rfc reference slot for a term is in one of the spec's two states
(§4.4 state machine): unpopulated (no entry at all) or populated
(non-empty name). -/
def slotOK (ctx : ParsingContext) (term : String) : Prop :=
  (ctx.Result.GetReference rfcSpec).Values.lookup term = none ∨
  ((ctx.Result.GetReference rfcSpec).valuesGet term).Name ≠ ""

/-- Applying `step` a second time to the context its first application
produced returns `(true, nil)` and leaves that context unchanged, so two
applications yield the same Parsed Vocabulary as one. -/
def applyIdem (step : ParsingContext → Bool × Option GoErr × ParsingContext)
    (ctx : ParsingContext) : Prop :=
  step (step ctx).2.2 = (true, none, (step ctx).2.2)

/-- C3: for each of the three RFC reference nodes and every key/value,
applying the node twice against the same Parsing Context (whose rfc
slots are in one of the spec's two per-term states) yields a Parsed
Vocabulary identical to applying it once: the second call writes nothing
and returns no error. -/
theorem rfc_apply_idempotent (pkg key : String) (value : DynVal)
    (ctx : ParsingContext) (h1 : slotOK ctx bcp47Spec)
    (h2 : slotOK ctx mimeSpec) (h3 : slotOK ctx relSpec) :
    applyIdem (bcp47.Apply ⟨pkg⟩ key value) ctx ∧
    applyIdem (mime.Apply ⟨pkg⟩ key value) ctx ∧
    applyIdem (rel.Apply ⟨pkg⟩ key value) ctx := by
  refine ⟨?_, ?_, ?_⟩
  · unfold applyIdem
    rcases h1 with hlook | hname
    · rw [bcp47_apply_fresh ⟨pkg⟩ key value ctx hlook]
      refine bcp47_apply_populated ⟨pkg⟩ key value _ ?_
      rw [show (((true, none,
            (⟨ctx.Result.setReference rfcSpec
              ⟨(bcp47Spec, bcp47Val pkg (rfcSpec ++ bcp47Spec))
                :: (ctx.Result.GetReference rfcSpec).Values⟩⟩ : ParsingContext)) :
            Bool × Option GoErr × ParsingContext).2.2).Result
          = ctx.Result.setReference rfcSpec
              ⟨(bcp47Spec, bcp47Val pkg (rfcSpec ++ bcp47Spec))
                :: (ctx.Result.GetReference rfcSpec).Values⟩ from rfl]
      rw [getReference_setReference, valuesGet_cons_self, bcp47Val_Name]
      decide
    · have hf := bcp47_apply_populated ⟨pkg⟩ key value ctx (str_length_ne_zero hname)
      rw [hf]
      exact hf
  · unfold applyIdem
    rcases h2 with hlook | hname
    · rw [mime_apply_fresh ⟨pkg⟩ key value ctx hlook]
      refine mime_apply_populated ⟨pkg⟩ key value _ ?_
      rw [show (((true, none,
            (⟨ctx.Result.setReference rfcSpec
              ⟨(mimeSpec, mimeVal pkg (rfcSpec ++ mimeSpec))
                :: (ctx.Result.GetReference rfcSpec).Values⟩⟩ : ParsingContext)) :
            Bool × Option GoErr × ParsingContext).2.2).Result
          = ctx.Result.setReference rfcSpec
              ⟨(mimeSpec, mimeVal pkg (rfcSpec ++ mimeSpec))
                :: (ctx.Result.GetReference rfcSpec).Values⟩ from rfl]
      rw [getReference_setReference, valuesGet_cons_self, mimeVal_Name]
      decide
    · have hf := mime_apply_populated ⟨pkg⟩ key value ctx (str_length_ne_zero hname)
      rw [hf]
      exact hf
  · unfold applyIdem
    rcases h3 with hlook | hname
    · rw [rel_apply_fresh ⟨pkg⟩ key value ctx hlook]
      refine rel_apply_populated ⟨pkg⟩ key value _ ?_
      rw [show (((true, none,
            (⟨ctx.Result.setReference rfcSpec
              ⟨(relSpec, relVal pkg (rfcSpec ++ relSpec))
                :: (ctx.Result.GetReference rfcSpec).Values⟩⟩ : ParsingContext)) :
            Bool × Option GoErr × ParsingContext).2.2).Result
          = ctx.Result.setReference rfcSpec
              ⟨(relSpec, relVal pkg (rfcSpec ++ relSpec))
                :: (ctx.Result.GetReference rfcSpec).Values⟩ from rfl]
      rw [getReference_setReference, valuesGet_cons_self, relVal_Name]
      decide
    · have hf := rel_apply_populated ⟨pkg⟩ key value ctx (str_length_ne_zero hname)
      rw [hf]
      exact hf

/-- Witness for `rfc_apply_idempotent` at the empty parsing context. -/
theorem rfc_apply_idempotent_witness :
    slotOK ⟨⟨[]⟩⟩ bcp47Spec ∧ slotOK ⟨⟨[]⟩⟩ mimeSpec ∧ slotOK ⟨⟨[]⟩⟩ relSpec ∧
    (applyIdem (bcp47.Apply ⟨"pkg"⟩ "k" DynVal.null) ⟨⟨[]⟩⟩ ∧
     applyIdem (mime.Apply ⟨"pkg"⟩ "k" DynVal.null) ⟨⟨[]⟩⟩ ∧
     applyIdem (rel.Apply ⟨"pkg"⟩ "k" DynVal.null) ⟨⟨[]⟩⟩) :=
  ⟨Or.inl rfl, Or.inl rfl, Or.inl rfl,
    rfc_apply_idempotent "pkg" "k" DynVal.null ⟨⟨[]⟩⟩
      (Or.inl rfl) (Or.inl rfl) (Or.inl rfl)⟩

/-- C6: the transform contracts attached by the first `bcp47.Apply` (rfc
slot unpopulated) satisfy: Serialize returns its input unchanged with no
error; Deserialize after Serialize returns the original string with no
error; Deserialize on any non-string input fails with the type-mismatch
error naming the offending value. -/
theorem bcp47_transform_contracts (pkg key : String) (value : DynVal)
    (ctx : ParsingContext)
    (hlook : (ctx.Result.GetReference rfcSpec).Values.lookup bcp47Spec = none) :
    (∀ d : DynVal,
      ((((bcp47.Apply ⟨pkg⟩ key value ctx).2.2).Result.GetReference
          rfcSpec).valuesGet bcp47Spec).SerializeFn.body.runUnary d
        = some (d, none)) ∧
    (∀ x : String,
      (((((bcp47.Apply ⟨pkg⟩ key value ctx).2.2).Result.GetReference
            rfcSpec).valuesGet bcp47Spec).SerializeFn.body.runUnary
          (.str x)).bind
        (fun p =>
          ((((bcp47.Apply ⟨pkg⟩ key value ctx).2.2).Result.GetReference
              rfcSpec).valuesGet bcp47Spec).DeserializeFn.body.runUnary p.1)
        = some (.str x, none)) ∧
    (∀ d : DynVal, d.isStr = false →
      ((((bcp47.Apply ⟨pkg⟩ key value ctx).2.2).Result.GetReference
          rfcSpec).valuesGet bcp47Spec).DeserializeFn.body.runUnary d
        = some (.str "",
            some (.errorfVal
              "%v cannot be interpreted as a string for bcp47 languagetag" d))) := by
  have hv : (((bcp47.Apply ⟨pkg⟩ key value ctx).2.2).Result.GetReference
      rfcSpec).valuesGet bcp47Spec = bcp47Val pkg (rfcSpec ++ bcp47Spec) := by
    rw [bcp47_apply_fresh ⟨pkg⟩ key value ctx hlook]
    simp only [getReference_setReference, valuesGet_cons_self]
  rw [hv]
  refine ⟨?_, ?_, ?_⟩
  · intro d
    rfl
  · intro x
    rfl
  · intro d hd
    cases d <;> first | rfl | simp [DynVal.isStr] at hd

/-- Witness for `bcp47_transform_contracts` at the empty context, the
string "en-US" and the non-string input `7`. -/
theorem bcp47_transform_contracts_witness :
    ((⟨⟨[]⟩⟩ : ParsingContext).Result.GetReference rfcSpec).Values.lookup
        bcp47Spec = none ∧
    ((((bcp47.Apply ⟨"p"⟩ "k" DynVal.null ⟨⟨[]⟩⟩).2.2).Result.GetReference
        rfcSpec).valuesGet bcp47Spec).SerializeFn.body.runUnary
      (DynVal.str "en-US") = some (DynVal.str "en-US", none) ∧
    ((((bcp47.Apply ⟨"p"⟩ "k" DynVal.null ⟨⟨[]⟩⟩).2.2).Result.GetReference
        rfcSpec).valuesGet bcp47Spec).DeserializeFn.body.runUnary
      (DynVal.num 7)
      = some (.str "",
          some (.errorfVal
            "%v cannot be interpreted as a string for bcp47 languagetag"
            (DynVal.num 7))) :=
  ⟨rfl,
    (bcp47_transform_contracts "p" "k" DynVal.null ⟨⟨[]⟩⟩ rfl).1
      (DynVal.str "en-US"),
    (bcp47_transform_contracts "p" "k" DynVal.null ⟨⟨[]⟩⟩ rfl).2.2
      (DynVal.num 7) rfl⟩
